import Mathlib

/-!
Verification development for the SECOP natural-language query pipeline
(`backend/app/core`): the query parser with its heuristic fallback, the
SoQL builder, the entity resolver, and the caching/retrying Socrata client.

Python values flowing through the pipeline (filter values, JSON payloads,
metadata) are modelled by the inductive `Jv`.  Python floats only arise here
as `float(s)` of a digit string; they are modelled exactly by their integral
value (`Jv.jFloat`), since no claim depends on floating-point rounding.
Python `bool` is kept as a separate constructor; note that Python treats
`bool` as a subtype of `int` in `isinstance` checks, which the embedding
mirrors where relevant.
-/

/-- Model of a Python value as it occurs in this code base: JSON scalars,
strings, lists, dicts (insertion-ordered association lists with string keys,
as produced by `json.loads` / dict literals), and sets. -/
inductive Jv where
  | jNull
  | jBool (b : Bool)
  | jInt (n : Int)
  | jFloat (n : Int)
  | jStr (s : String)
  | jList (xs : List Jv)
  | jDict (kvs : List (String × Jv))
  | jSet (xs : List Jv)

/-- Python truthiness (`bool(v)`) for the modelled values. -/
def Jv.truthy : Jv → Bool
  | .jNull => false
  | .jBool b => b
  | .jInt n => !(n == 0)
  | .jFloat n => !(n == 0)
  | .jStr s => !(s == "")
  | .jList xs => !xs.isEmpty
  | .jDict kvs => !kvs.isEmpty
  | .jSet xs => !xs.isEmpty

mutual
/-- Python `repr` of a modelled value (used by `str` on containers).
String `repr` is modelled as plain single-quoting; the values reaching it in
the claims contain no quote or escape characters. -/
def pyRepr : Jv → String
  | .jNull => "None"
  | .jBool b => if b then "True" else "False"
  | .jInt n => toString n
  | .jFloat n => toString n ++ ".0"
  | .jStr s => "\x27" ++ s ++ "\x27"
  | .jList xs => "[" ++ pyReprList xs ++ "]"
  | .jDict kvs => "\x7b" ++ pyReprDict kvs ++ "\x7d"
  | .jSet xs => "\x7b" ++ pyReprList xs ++ "\x7d"

/-- Comma-joined `repr`s of list elements. -/
def pyReprList : List Jv → String
  | [] => ""
  | [x] => pyRepr x
  | x :: y :: t => pyRepr x ++ ", " ++ pyReprList (y :: t)

/-- Comma-joined `repr`s of dict items. -/
def pyReprDict : List (String × Jv) → String
  | [] => ""
  | [kv] => "\x27" ++ kv.1 ++ "\x27: " ++ pyRepr kv.2
  | kv :: kv2 :: t => "\x27" ++ kv.1 ++ "\x27: " ++ pyRepr kv.2 ++ ", " ++ pyReprDict (kv2 :: t)
end

/-- Python `str(v)`: identity on strings, `repr` otherwise. -/
def pyStr : Jv → String
  | .jStr s => s
  | v => pyRepr v

/-- Double every single-quote character (`value.replace("'", "''")`). -/
def dupQuotesL : List Char → List Char
  | [] => []
  | c :: t => if c = '\'' then '\'' :: '\'' :: dupQuotesL t else c :: dupQuotesL t

/-- Double every single-quote character in a string. -/
def dupQuotes (s : String) : String := String.mk (dupQuotesL s.toList)

/-- A hexadecimal digit character (lower case), as used by JSON escapes. -/
def hexDigit (n : Nat) : Char :=
  if n < 10 then Char.ofNat ('0'.toNat + n) else Char.ofNat ('a'.toNat + (n - 10))

/-- A JSON `\uXXXX` escape for a 16-bit code unit. -/
def uEscape (n : Nat) : List Char :=
  ['\\', 'u', hexDigit (n / 4096 % 16), hexDigit (n / 256 % 16),
   hexDigit (n / 16 % 16), hexDigit (n % 16)]

/-- JSON string-character escaping as performed by Python `json.dumps` with
its default `ensure_ascii=True`: characters outside `0x20`–`0x7e` are
escaped, non-BMP characters as surrogate pairs. -/
def jsonEscapeChar (c : Char) : List Char :=
  if c = '"' then ['\\', '"']
  else if c = '\\' then ['\\', '\\']
  else if c = '\n' then ['\\', 'n']
  else if c = '\t' then ['\\', 't']
  else if c = '\r' then ['\\', 'r']
  else if c = '\x08' then ['\\', 'b']
  else if c = '\x0c' then ['\\', 'f']
  else if c.toNat < 0x20 ∨ 0x7e < c.toNat then
    if c.toNat ≤ 0xffff then uEscape c.toNat
    else uEscape (0xd800 + (c.toNat - 0x10000) / 1024) ++
         uEscape (0xdc00 + (c.toNat - 0x10000) % 1024)
  else [c]

/-- JSON escaping of a whole string (contents between the double quotes). -/
def jsonEscape (s : String) : String :=
  String.mk ((s.toList.map jsonEscapeChar).flatten)

/-- Comma-join with `", "`, the default JSON item separator. -/
def joinCommaSp (xs : List String) : String := String.intercalate ", " xs

/-- Strict lexicographic comparison of character lists by code point, the
order Python uses on `str` (and hence the order of `sorted` dict keys). -/
def lexLt : List Char → List Char → Bool
  | [], [] => false
  | [], _ :: _ => true
  | _ :: _, [] => false
  | a :: as, b :: bs =>
    if a.toNat < b.toNat then true
    else if b.toNat < a.toNat then false
    else lexLt as bs

/-- Non-strict string comparison by code point, as a Boolean. -/
def strLe (a b : String) : Bool := !(lexLt b.toList a.toList)

/-- `strLe` as a relation, for use with `List.insertionSort`. -/
def strLeP (a b : String) : Prop := strLe a b = true

instance : DecidableRel strLeP := fun a b =>
  inferInstanceAs (Decidable (strLe a b = true))

mutual
/-- `json.dumps(v, sort_keys=True)`: serialise with dict keys in sorted
order (recursively).  `none` models the `TypeError` Python raises on values
that are not JSON serialisable (sets).  Dict items are serialised and then
ordered by their (raw) key, which for the unique-key dicts produced by
Python coincides with serialising `sorted(d.items())`. -/
def dumpsSorted : Jv → Option String
  | .jNull => some "null"
  | .jBool b => some (if b then "true" else "false")
  | .jInt n => some (toString n)
  | .jFloat n => some (toString n ++ ".0")
  | .jStr s => some ("\"" ++ jsonEscape s ++ "\"")
  | .jList xs => (dumpsSortedList xs).map (fun ss => "[" ++ joinCommaSp ss ++ "]")
  | .jDict kvs => (dumpsSortedPairs kvs).map (fun ps =>
      let sortedKeys := (ps.map Prod.fst).insertionSort strLeP
      let items := sortedKeys.map (fun k =>
        "\"" ++ jsonEscape k ++ "\": " ++ ((ps.lookup k).getD ""))
      "\x7b" ++ joinCommaSp items ++ "\x7d")
  | .jSet _ => none

/-- Serialise every element of a list, failing if any element fails. -/
def dumpsSortedList : List Jv → Option (List String)
  | [] => some []
  | x :: t =>
    match dumpsSorted x, dumpsSortedList t with
    | some s, some ts => some (s :: ts)
    | _, _ => none

/-- Serialise every dict value, keeping the raw keys, failing if any value
fails. -/
def dumpsSortedPairs : List (String × Jv) → Option (List (String × String))
  | [] => some []
  | (k, v) :: t =>
    match dumpsSorted v, dumpsSortedPairs t with
    | some s, some ts => some ((k, s) :: ts)
    | _, _ => none
end

/-- The parsed intent (`QueryParams` dataclass).  `filters` is a Python dict
in insertion order; `metrics` is restricted to strings per the dataclass
annotation `List[str]` (every code path settled here satisfies it). -/
structure QueryParams where
  entity : String
  filters : List (String × Jv)
  metrics : List String
  raw_query : String
  limit : Option Int

/-- The best matching SECOP entity (`ResolvedEntity` dataclass).  Scores are
floats in Python; here they are modelled as rationals, exact for every score
arising in the claims. -/
structure ResolvedEntity where
  name : String
  score : Rat
  metadata : List (String × Jv)

namespace SoQLBuilder

/-- `SoQLBuilder._quote`: numbers via `str` — `isinstance(value, (int,
float))` also accepts `bool` (an `int` subtype), so `True`/`False` are
emitted bare — everything else via `str` with single quotes doubled and
wrapped in single quotes. -/
def quoteVal : Jv → String
  | .jInt n => toString n
  | .jFloat n => toString n ++ ".0"
  | .jBool b => if b then "True" else "False"
  | v => "\x27" ++ dupQuotes (pyStr v) ++ "\x27"

/-- `SoQLBuilder._render_filter`: dispatch on the Python kind of the value.
`isinstance(value, (int, float))` also accepts `bool`; `isinstance(value,
Iterable)` accepts lists, dicts (iterating a dict yields its keys) and sets;
only the remaining kinds (here `None`) reach the `json.dumps` fallback,
where `json.dumps(None) = "null"`. -/
def renderFilter (key : String) : Jv → String
  | .jInt n => key ++ " = " ++ toString n
  | .jFloat n => key ++ " = " ++ toString n ++ ".0"
  | .jBool b => key ++ " = " ++ (if b then "True" else "False")
  | .jStr s => "upper(" ++ key ++ ") LIKE upper(\x27%" ++ dupQuotes s ++ "%\x27)"
  | .jList xs => key ++ " IN (" ++ joinCommaSp (xs.map quoteVal) ++ ")"
  | .jDict kvs => key ++ " IN (" ++ joinCommaSp (kvs.map (fun kv => quoteVal (.jStr kv.1))) ++ ")"
  | .jSet xs => key ++ " IN (" ++ joinCommaSp (xs.map quoteVal) ++ ")"
  | .jNull => key ++ " = null"

/-- `SoQLBuilder._build_where`: render every filter and join the non-empty
clauses with `" AND "` (`filter(None, clauses)` drops falsy strings). -/
def buildWhere (filters : List (String × Jv)) : String :=
  String.intercalate " AND "
    ((filters.map (fun kv => renderFilter kv.1 kv.2)).filter (fun s => s ≠ ""))

/-- `SoQLBuilder._resolve_dataset`: a truthy `dataset_id` in the resolved
entity's metadata wins; otherwise the static map, falling back to the entity
name itself. -/
def resolveDataset (datasetMap : List (String × String)) (params : QueryParams)
    (entity : Option ResolvedEntity) : Jv :=
  match entity with
  | some e =>
    match e.metadata.lookup "dataset_id" with
    | some v =>
      if v.truthy then v
      else .jStr ((datasetMap.lookup params.entity).getD params.entity)
    | none => .jStr ((datasetMap.lookup params.entity).getD params.entity)
  | none => .jStr ((datasetMap.lookup params.entity).getD params.entity)

/-- The compiled query payload returned by `SoQLBuilder.build`. -/
structure SoqlQuery where
  dataset : Jv
  params : List (String × Jv)

/-- `SoQLBuilder.build`: resolve the dataset and emit `$where` / `$select` /
`$limit` keys only when non-empty / non-empty / present. -/
def build (datasetMap : List (String × String)) (params : QueryParams)
    (entity : Option ResolvedEntity) : SoqlQuery :=
  let datasetIdentifier := resolveDataset datasetMap params entity
  let whereClause := buildWhere params.filters
  let p1 : List (String × Jv) :=
    if whereClause ≠ "" then [("$where", .jStr whereClause)] else []
  let p2 :=
    if params.metrics ≠ [] then p1 ++ [("$select", .jStr (joinCommaSp params.metrics))] else p1
  let p3 :=
    match params.limit with
    | some l => p2 ++ [("$limit", .jInt l)]
    | none => p2
  ⟨datasetIdentifier, p3⟩

end SoQLBuilder

namespace SecopClient

/-- `SecopClient._cache_key`: `"secop:<dataset>:<json.dumps(params,
sort_keys=True)>"`; `none` models the `TypeError` raised for
non-serialisable params. -/
def cacheKey (dataset : String) (params : List (String × Jv)) : Option String :=
  (dumpsSorted (Jv.jDict params)).map (fun s => "secop:" ++ dataset ++ ":" ++ s)

/-- The Redis cache, modelled as an association list of
`key ↦ (ttlSeconds, serialisedValue)`; `setex` prepends, `get` takes the
first binding. -/
def Store := List (String × Nat × String)

/-- `redis.get(key)`, ignoring the stored TTL. -/
def storeGet (st : Store) (k : String) : Option String :=
  (List.lookup k st).map Prod.snd

/-- `redis.setex(key, ttl, value)`. -/
def storeSetex (st : Store) (k : String) (ttl : Nat) (v : String) : Store :=
  (k, ttl, v) :: st

/-- The `while True` retry loop of `SecopClient.query`.  The remote
capability is a function from the call index (= number of prior failed
attempts) to an outcome; `i` is the Python `attempt` counter at loop entry.
Returns the loop outcome together with the total number of remote calls
made.  The backoff sleeps have no observable effect on the result and are
not modelled. -/
def retryLoop (remote : Nat → Except E A) (maxRetries : Nat) (i : Nat) :
    Except E A × Nat :=
  match remote i with
  | .ok a => (.ok a, i + 1)
  | .error e =>
    if h : i + 1 > maxRetries then (.error e, i + 1)
    else retryLoop remote maxRetries (i + 1)
termination_by maxRetries + 1 - i
decreasing_by omega

/-- Outcome of `SecopClient.query`: rows, a propagated remote failure (the
bare `raise` re-raising the last attempt's exception), or the `TypeError`
raised by `_cache_key` on non-serialisable params. -/
inductive QueryResult (E A : Type) where
  | ok (rows : A)
  | err (e : E)
  | serError

/-- `SecopClient.query`.  `ser`/`deser` model `json.dumps`/`json.loads` on
the row payload; `maxRetries` is a natural number (the configured maximum
attempt count, default 3).  Returns the outcome, the number of remote calls
made, and the cache store after the call. -/
def query (redis : Option Store) (ser : A → String) (deser : String → A)
    (dataset : String) (params : List (String × Jv))
    (remote : Nat → Except E A) (maxRetries : Nat) :
    QueryResult E A × Nat × Option Store :=
  match cacheKey dataset params with
  | none => (.serError, 0, redis)
  | some key =>
    match redis with
    | some st =>
      match storeGet st key with
      | some cached => (.ok (deser cached), 0, some st)
      | none =>
        match retryLoop remote maxRetries 0 with
        | (.ok a, n) => (.ok a, n, some (storeSetex st key 300 (ser a)))
        | (.error e, n) => (.err e, n, some st)
    | none =>
      match retryLoop remote maxRetries 0 with
      | (.ok a, n) => (.ok a, n, none)
      | (.error e, n) => (.err e, n, none)

end SecopClient

namespace EntityResolver

/-- The inner result lists of a Chroma `collection.query` call for a single
query text: `results["documents"][0]`, `results["metadatas"][0]`,
`results["distances"][0]` (missing/`None` lists model as `[]`, matching the
`or [[]]` defaults).  Distances are floats in Python, modelled as
rationals. -/
structure ChromaResults where
  documents : List String
  metadatas : List (List (String × Jv))
  distances : List Rat

/-- The similarity-search capability: `get_or_create_collection` plus
`query`, collapsed into one call that may raise. -/
def ChromaClient := String → Nat → Except Unit ChromaResults

/-- The reranking capability: `rerank(query, documents)` returning
`(index, relevance_score)` pairs in rerank order, or raising. -/
def CohereClient :=
  String → List (String × List (String × Jv)) → Except Unit (List (Nat × Rat))

/-- `EntityResolver._search_chroma`: without a client (or on failure) the
mention itself with score 1.0 and empty metadata; otherwise hits converted
via `score = 1 - distance` (zipping truncates to the shortest list, like
Python `zip`), with a score-0 mention candidate when there are no hits. -/
def searchChroma (chroma : Option ChromaClient) (mention : String) (topK : Nat) :
    List ResolvedEntity :=
  match chroma with
  | none => [⟨mention, 1, []⟩]
  | some client =>
    match client mention topK with
    | .error _ => [⟨mention, 1, []⟩]
    | .ok res =>
      let candidates :=
        (res.documents.zip (res.metadatas.zip res.distances)).map
          (fun dmd => ⟨dmd.1, 1 - dmd.2.2, dmd.2.1⟩)
      if candidates.isEmpty then [⟨mention, 0, []⟩] else candidates

/-- `EntityResolver._rerank_with_cohere`: replace scores and order by the
reranker's results (indices resolved positionally, unknown indices skipped);
on failure or zero usable items keep the original candidates. -/
def rerankWithCohere (cohere : CohereClient) (mention : String)
    (candidates : List ResolvedEntity) : List ResolvedEntity :=
  match cohere mention (candidates.map (fun c => (c.name, c.metadata))) with
  | .error _ => candidates
  | .ok results =>
    let reranked := results.filterMap
      (fun ir => (candidates.get? ir.1).map (fun c => ⟨c.name, ir.2, c.metadata⟩))
    if reranked.isEmpty then candidates else reranked

/-- `EntityResolver.resolve`: search, optionally rerank when more than one
candidate exists, return the first candidate (or `None` for an empty
candidate list). -/
def resolve (chroma : Option ChromaClient) (cohere : Option CohereClient)
    (mention : String) (topK : Nat) : Option ResolvedEntity :=
  let candidates := searchChroma chroma mention topK
  if candidates.isEmpty then none
  else
    let candidates :=
      match cohere with
      | some co => if candidates.length > 1 then rerankWithCohere co mention candidates else candidates
      | none => candidates
    candidates.head?

end EntityResolver

namespace QueryParser

/-- Python `\s` (ASCII whitespace; the inputs settled here contain no other
whitespace). -/
def isSpaceCh (c : Char) : Bool :=
  c == ' ' || c == '\t' || c == '\n' || c == '\r' || c == '\x0b' || c == '\x0c'

/-- The accented letters the heuristics' character class names explicitly
(both cases, since Python `\w` covers them case-independently). -/
def isAccented (c : Char) : Bool :=
  c == 'á' || c == 'é' || c == 'í' || c == 'ó' || c == 'ú' || c == 'ñ' ||
  c == 'Á' || c == 'É' || c == 'Í' || c == 'Ó' || c == 'Ú' || c == 'Ñ'

/-- Python `\w` restricted to the alphabet of this code base: ASCII
alphanumerics, underscore, and the accented Spanish letters. -/
def isWordCh (c : Char) : Bool := c.isAlphanum || c == '_' || isAccented c

/-- The capture class `[\w\sáéíóúñ.&-]` of the buyer/supplier patterns. -/
def isCaptureCh (c : Char) : Bool :=
  isWordCh c || isSpaceCh c || c == '.' || c == '&' || c == '-'

/-- Characters matched by `[\d.,]` in the amount pattern. -/
def isAmtCh (c : Char) : Bool := c.isDigit || c == '.' || c == ','

/-- Characters stripped by `.strip(" ,.-")`. -/
def isPunctCh (c : Char) : Bool := c == ' ' || c == ',' || c == '.' || c == '-'

/-- Python `str.lower()` on the alphabet of this code base (ASCII plus the
accented Spanish letters). -/
def lowerCh (c : Char) : Char :=
  if 'A' ≤ c ∧ c ≤ 'Z' then Char.ofNat (c.toNat + 32)
  else if c = 'Á' then 'á'
  else if c = 'É' then 'é'
  else if c = 'Í' then 'í'
  else if c = 'Ó' then 'ó'
  else if c = 'Ú' then 'ú'
  else if c = 'Ñ' then 'ñ'
  else c

/-- Boolean list-prefix test. -/
def isPrefixL : List Char → List Char → Bool
  | [], _ => true
  | _ :: _, [] => false
  | a :: as, b :: bs => a == b && isPrefixL as bs

/-- Python `needle in haystack` substring containment. -/
def containsSub (needle : List Char) : List Char → Bool
  | [] => needle.isEmpty
  | c :: t => isPrefixL needle (c :: t) || containsSub needle t

/-- Strip leading and trailing characters satisfying `p` (both ends). -/
def stripBoth (p : Char → Bool) (cs : List Char) : List Char :=
  ((cs.dropWhile p).reverse.dropWhile p).reverse

/-- Numeric value of a digit string (`int(s)`). -/
def digitsToNat (cs : List Char) : Nat :=
  cs.foldl (fun acc c => acc * 10 + (c.toNat - 48)) 0

/-- Match `(19|20)\d{2}` anchored at the head of the list, returning the
year value. -/
def yearAt : List Char → Option Nat
  | a :: b :: c :: d :: _ =>
    if ((a == '1' && b == '9') || (a == '2' && b == '0')) && c.isDigit && d.isDigit then
      some ((a.toNat - 48) * 1000 + (b.toNat - 48) * 100 + (c.toNat - 48) * 10 + (d.toNat - 48))
    else none
  | _ => none

/-- `re.search(r"(19|20)\d{2}", s)`: leftmost match. -/
def findYear : List Char → Option Nat
  | [] => none
  | c :: t =>
    match yearAt (c :: t) with
    | some y => some y
    | none => findYear t

/-- Match `\s+([\w\sáéíóúñ.&-]+)` anchored at the head of `rest`, returning
the captured group.  `\s+` first takes the maximal whitespace run; since the
capture class itself contains `\s`, a failing one-character-minimum capture
backtracks one whitespace character out of `\s+` when possible (Python `re`
backtracking). -/
def captureAfter (rest : List Char) : Option (List Char) :=
  let w := rest.takeWhile isSpaceCh
  if w.isEmpty then none
  else
    let afterW := rest.drop w.length
    let cap := afterW.takeWhile isCaptureCh
    if !cap.isEmpty then some cap
    else if 2 ≤ w.length then some [w.getLastD ' ']
    else none

/-- `re.search(r"entidad\s+([\w\sáéíóúñ.&-]+)", query, re.IGNORECASE)`:
scan left to right for a case-insensitive `entidad` whose tail admits the
whitespace-plus-capture match; the capture preserves the original casing. -/
def searchEntidad : List Char → Option (List Char)
  | [] => none
  | c :: t =>
    if (List.map lowerCh (List.take 7 (c :: t))) == "entidad".toList then
      match captureAfter (List.drop 7 (c :: t)) with
      | some cap => some cap
      | none => searchEntidad t
    else searchEntidad t

/-- `re.search(r"proveedor(?:a)?\s+([\w\sáéíóúñ.&-]+)", query,
re.IGNORECASE)`: like `searchEntidad`, with the greedy optional `a` tried
first. -/
def searchProveedor : List Char → Option (List Char)
  | [] => none
  | c :: t =>
    if (List.map lowerCh (List.take 9 (c :: t))) == "proveedor".toList then
      let rest := List.drop 9 (c :: t)
      let attemptA : Option (List Char) :=
        match rest with
        | r :: rt => if lowerCh r == 'a' then captureAfter rt else none
        | [] => none
      match attemptA with
      | some cap => some cap
      | none =>
        match captureAfter rest with
        | some cap => some cap
        | none => searchProveedor t
    else searchProveedor t

/-- `re.sub(r"(?:\b(?:19|20)\d{2})$", "", s)`: drop a trailing 4-digit year
preceded by a word boundary. -/
def stripTrailingYear (cs : List Char) : List Char :=
  match cs.reverse with
  | d :: c :: b :: a :: restRev =>
    if (((a == '1' && b == '9') || (a == '2' && b == '0')) && c.isDigit && d.isDigit)
        && (restRev.isEmpty || !isWordCh (restRev.headD ' ')) then
      restRev.reverse
    else cs
  | _ => cs

/-- Match `\s+\$?(\d+[\d.,]*)` anchored at the head of `r`, returning the
captured numeral.  The combined greedy `\d+[\d.,]*` capture is the maximal
`[\d.,]` run provided its first character is a digit. -/
def amountCapture (r : List Char) : Option (List Char) :=
  let w := r.takeWhile isSpaceCh
  if w.isEmpty then none
  else
    let r2 := r.drop w.length
    let r3 := match r2 with
      | '$' :: t2 => t2
      | _ => r2
    match r3 with
    | c :: _ => if c.isDigit then some (r3.takeWhile isAmtCh) else none
    | [] => none

/-- `re.search(r"mayor(?: a)?\s+\$?(\d+[\d.,]*)", lowered)`: scan for
`mayor`, greedy optional ` a`, then the amount tail. -/
def searchMayor : List Char → Option (List Char)
  | [] => none
  | c :: t =>
    if List.take 5 (c :: t) == "mayor".toList then
      let rest := List.drop 5 (c :: t)
      let attemptA : Option (List Char) :=
        if rest.take 2 == [' ', 'a'] then amountCapture (rest.drop 2) else none
      match attemptA with
      | some cap => some cap
      | none =>
        match amountCapture rest with
        | some cap => some cap
        | none => searchMayor t
    else searchMayor t

/-- Match `\s+(\d+)` anchored at the head of `r`. -/
def limitCapture (r : List Char) : Option (List Char) :=
  let w := r.takeWhile isSpaceCh
  if w.isEmpty then none
  else
    let digits := (r.drop w.length).takeWhile Char.isDigit
    if digits.isEmpty then none else some digits

/-- `re.search(r"(?:top|primer[oa]s?)\s+(\d+)", lowered)`: scan for either
alternative (with `top` tried first at each position and the greedy
optional `s` tried first), then the digits tail. -/
def searchTop : List Char → Option (List Char)
  | [] => none
  | c :: t =>
    let alt1 :=
      if List.take 3 (c :: t) == "top".toList then limitCapture (List.drop 3 (c :: t)) else none
    match alt1 with
    | some ds => some ds
    | none =>
      let alt2 : Option (List Char) :=
        if List.take 6 (c :: t) == "primer".toList then
          match List.drop 6 (c :: t) with
          | oa :: rest =>
            if oa == 'o' || oa == 'a' then
              match rest with
              | 's' :: rest2 =>
                (match limitCapture rest2 with
                 | some ds => some ds
                 | none => limitCapture rest)
              | _ => limitCapture rest
            else none
          | [] => none
        else none
      match alt2 with
      | some ds => some ds
      | none => searchTop t

/-- Internal container for Gemini responses (`GeminiResponse` dataclass).
`entity` is whatever `payload.get("entity")` returned (untyped in Python);
the heuristic path always fills a string. -/
structure GeminiResponse where
  entity : Option Jv
  filters : List (String × Jv)
  metrics : List String
  limit : Option Int

/-- The entity classification of `_heuristic_parse`: supplier keywords,
then agency keywords, else the default `contracts`. -/
def heuristicEntity (lowered : List Char) : String :=
  if containsSub "proveedor".toList lowered || containsSub "supplier".toList lowered then
    "suppliers"
  else if containsSub "entidad".toList lowered || containsSub "agency".toList lowered then
    "agencies"
  else "contracts"

/-- The limit extraction of `_heuristic_parse`: a `top N` match with `N > 0`
(`int` of a digit capture never raises). -/
def heuristicLimit (lowered : List Char) : Option Int :=
  match searchTop lowered with
  | some ds =>
    let n := digitsToNat ds
    if n > 0 then some (n : Int) else none
  | none => none

/-- `QueryParser._heuristic_parse`, on the characters of the query. -/
def heuristicParse (query : List Char) : GeminiResponse :=
  let lowered := query.map lowerCh
  let entity := heuristicEntity lowered
  let f1 : List (String × Jv) :=
    match findYear lowered with
    | some y => [("year", .jInt y)]
    | none => []
  let f2 :=
    match searchEntidad query with
    | some cap => f1 ++ [("buyer", .jStr (String.mk (stripBoth isSpaceCh cap)))]
    | none => f1
  let f3 :=
    match searchProveedor query with
    | some cap =>
      let s := stripBoth isPunctCh (stripTrailingYear (stripBoth isSpaceCh cap))
      if !s.isEmpty then f2 ++ [("supplier", .jStr (String.mk s))] else f2
    | none => f2
  let f4 :=
    match searchMayor lowered with
    | some numeral =>
      f3 ++ [("min_amount", .jFloat (digitsToNat (numeral.filter (fun c => !(c == '.' || c == ',')))))]
    | none => f3
  let metrics :=
    if containsSub "cuánto".toList lowered || containsSub "total".toList lowered ||
        containsSub "sum".toList lowered then
      ["total_amount"]
    else []
  let limit := heuristicLimit lowered
  ⟨some (.jStr entity), f4, metrics, limit⟩

/-- The raw value returned by the Gemini client's `generate`. -/
inductive RawResponse where
  | pyNone
  | text (s : String)
  | jsonDict (kvs : List (String × Jv))
  | otherType

/-- Outcome of invoking the Gemini client: an exception, or a raw value. -/
inductive LlmResult where
  | raises
  | returns (r : RawResponse)

/-- `payload.get(k) or default`. -/
def getOr (kvs : List (String × Jv)) (k : String) (dflt : Jv) : Jv :=
  match List.lookup k kvs with
  | some v => if v.truthy then v else dflt
  | none => dflt

/-- Validation of the model-derived limit: positive ints directly (Python
`bool` being an `int` subtype, `True` counts as 1), digit-only strings by
coercion, otherwise absent. -/
def coerceLimit (v : Option Jv) : Option Int :=
  match v with
  | some (.jInt n) => if n > 0 then some n else none
  | some (.jBool b) => if b then some 1 else none
  | some (.jStr s) =>
    if !s.toList.isEmpty && s.toList.all Char.isDigit then
      (let n := digitsToNat s.toList
       if n > 0 then some (n : Int) else none)
    else none
  | _ => none

/-- `list(metrics)` preceded by the `isinstance(metrics, Iterable)` check:
lists, sets, dicts (their keys) and strings (their characters) iterate;
scalars and `None` are not iterable.  The embedding keeps metrics as
strings per the dataclass annotation `List[str]`, so a list/set containing a
non-string element is rejected here (no settled code path produces one). -/
def iterStrings : Jv → Option (List String)
  | .jList xs => xs.mapM (fun x => match x with | .jStr s => some s | _ => none)
  | .jSet xs => xs.mapM (fun x => match x with | .jStr s => some s | _ => none)
  | .jStr s => some (s.toList.map (fun c => String.mk [c]))
  | .jDict kvs => some (kvs.map Prod.fst)
  | _ => none

/-- `QueryParser._coerce_response` applied to a parsed JSON payload: the
payload must be a dict (the `.get` calls on anything else raise, which
`parse` catches), its `filters` a dict and its `metrics` iterable. -/
def coercePayload (p : Jv) : Option GeminiResponse :=
  match p with
  | .jDict kvs =>
    let entity := List.lookup "entity" kvs
    let filters := getOr kvs "filters" (.jDict [])
    let metrics := getOr kvs "metrics" (.jList [])
    let limit := coerceLimit (List.lookup "limit" kvs)
    (match filters with
     | .jDict fkvs =>
       (match iterStrings metrics with
        | some ms => some ⟨entity, fkvs, ms, limit⟩
        | none => none)
     | _ => none)
  | _ => none

/-- `QueryParser._coerce_response` on the raw client value: strings go
through `json.loads` (modelled by the `jsonParse` parameter; `none` is a
`JSONDecodeError`), dicts are taken directly, anything else is rejected. -/
def coerceResponse (jsonParse : String → Option Jv) : RawResponse → Option GeminiResponse
  | .pyNone => none
  | .text s =>
    match jsonParse s with
    | some p => coercePayload p
    | none => none
  | .jsonDict kvs => coercePayload (.jDict kvs)
  | .otherType => none

/-- A Python exception surfaced by `QueryParams.__post_init__`: the explicit
`ValueError`s, or the `AttributeError` from calling `.strip()` on a truthy
non-string entity. -/
inductive PyError where
  | valueError (msg : String)
  | attributeError

/-- `QueryParams(...)` construction including `__post_init__`:
`not self.entity or not self.entity.strip()` raises `ValueError`; a present
non-positive limit raises `ValueError`. -/
def mkQueryParams (entity : Jv) (filters : List (String × Jv)) (metrics : List String)
    (rawQuery : String) (limit : Option Int) : Except PyError QueryParams :=
  if !entity.truthy then .error (.valueError "entity must be a non-empty string")
  else
    match entity with
    | .jStr s =>
      if (stripBoth isSpaceCh s.toList).isEmpty then
        .error (.valueError "entity must be a non-empty string")
      else
        (match limit with
         | some l =>
           if l ≤ 0 then .error (.valueError "limit must be a positive integer when provided")
           else .ok ⟨s, filters, metrics, rawQuery, limit⟩
         | none => .ok ⟨s, filters, metrics, rawQuery, limit⟩)
    | _ => .error .attributeError

/-- The fixed instruction sentence of `QueryParser._build_prompt`. -/
def promptInstructions : String :=
  "You are a query understanding system for the Colombian SECOP open " ++
  "data portal. Convert the user request into JSON with keys \x27entity\x27, " ++
  "\x27filters\x27, \x27metrics\x27, and optionally \x27limit\x27 (a positive integer). " ++
  "Filters must be a JSON object with simple key/value pairs or lists."

/-- The example JSON shape embedded in the prompt (the output of
`json.dumps` on the example dict, `ensure_ascii` escaping included). -/
def promptExample : String :=
  "\x7b\"entity\": \"contracts\", \"filters\": \x7b\"buyer\": \"Bogot\\u00e1\", \"year\": 2023\x7d, " ++
  "\"metrics\": [\"total_amount\"], \"limit\": 20\x7d"

/-- `QueryParser._build_prompt`. -/
def buildPrompt (query : String) : String :=
  promptInstructions ++ "\nInput: " ++ query ++ "\nRespond with JSON like: " ++ promptExample

/-- The model-backed half of `parse`: `None` when no client is configured,
the client raised, or its response was unusable. -/
def llmResponse (jsonParse : String → Option Jv) (llm : Option (String → LlmResult))
    (query : String) : Option GeminiResponse :=
  match llm with
  | none => none
  | some generate =>
    match generate (buildPrompt query) with
    | .raises => none
    | .returns raw => coerceResponse jsonParse raw

/-- `response.entity or "contracts"`: the default kicks in when the entity
is absent or falsy. -/
def entityOr (e : Option Jv) : Jv :=
  match e with
  | some v => if v.truthy then v else .jStr "contracts"
  | none => .jStr "contracts"

/-- The final `QueryParams(...)` assembly of `parse`. -/
def parseAssemble (response : GeminiResponse) (query : String) : Except PyError QueryParams :=
  mkQueryParams (entityOr response.entity) response.filters response.metrics query
    response.limit

/-- `QueryParser.parse`: try the Gemini client (any exception or unusable
response is swallowed), fall back to the heuristics, default the entity to
`"contracts"` when falsy, and assemble the `QueryParams`. -/
def parse (jsonParse : String → Option Jv) (llm : Option (String → LlmResult))
    (query : String) : Except PyError QueryParams :=
  parseAssemble
    (match llmResponse jsonParse llm query with
     | some r => r
     | none => heuristicParse query.toList)
    query

/-- The situation C3 describes: no language model configured, or one whose
invocation raises, or whose raw response is unusable (non-JSON text,
malformed shape, wrong type, `None`). -/
def llmUnusable (jsonParse : String → Option Jv) (llm : Option (String → LlmResult))
    (query : String) : Prop :=
  llm = none ∨ ∃ generate, llm = some generate ∧
    (generate (buildPrompt query) = .raises ∨
     ∃ raw, generate (buildPrompt query) = .returns raw ∧ coerceResponse jsonParse raw = none)

end QueryParser

/-- The situation in which `SoQLBuilder._resolve_dataset` falls through to
the static map: no resolved entity, or no truthy `dataset_id` in its
metadata. -/
def noTruthyDatasetId (ent : Option ResolvedEntity) : Prop :=
  ∀ re, ent = some re → ∀ v, List.lookup "dataset_id" re.metadata = some v → v.truthy = false

/-! ### General lemmas -/

theorem append_ne_empty_left (a b : String) (h : a ≠ "") : a ++ b ≠ "" := by
  intro hc
  apply h
  have hd : a.data ++ b.data = [] := congrArg String.data hc
  rcases List.append_eq_nil.mp hd with ⟨ha, _⟩
  cases a
  simp_all

theorem append_ne_empty_right (a b : String) (h : b ≠ "") : a ++ b ≠ "" := by
  intro hc
  apply h
  have hd : a.data ++ b.data = [] := congrArg String.data hc
  rcases List.append_eq_nil.mp hd with ⟨_, hb⟩
  cases b
  simp_all

/-! ### SoQL builder lemmas -/

theorem renderFilter_ne_empty (k : String) (v : Jv) : SoQLBuilder.renderFilter k v ≠ "" := by
  cases v with
  | jNull => exact append_ne_empty_right _ _ (by decide)
  | jBool b => exact append_ne_empty_left _ _ (append_ne_empty_right _ _ (by decide))
  | jInt n => exact append_ne_empty_left _ _ (append_ne_empty_right _ _ (by decide))
  | jFloat n => exact append_ne_empty_right _ _ (by decide)
  | jStr s => exact append_ne_empty_right _ _ (by decide)
  | jList xs => exact append_ne_empty_right _ _ (by decide)
  | jDict kvs => exact append_ne_empty_right _ _ (by decide)
  | jSet xs => exact append_ne_empty_right _ _ (by decide)

theorem buildWhere_eq_join (filters : List (String × Jv)) :
    SoQLBuilder.buildWhere filters =
      String.intercalate " AND " (filters.map (fun kv => SoQLBuilder.renderFilter kv.1 kv.2)) := by
  unfold SoQLBuilder.buildWhere
  congr 1
  apply List.filter_eq_self.mpr
  intro s hs
  rcases List.mem_map.mp hs with ⟨kv, _, rfl⟩
  simpa using renderFilter_ne_empty kv.1 kv.2

/-! ### Retry loop lemmas -/

theorem retryLoop_all_fail {E A : Type} (remote : Nat → Except E A) (es : Nat → E)
    (maxRetries : Nat) :
    ∀ d i, i + d = maxRetries →
      (∀ j, i ≤ j → j ≤ maxRetries → remote j = .error (es j)) →
      SecopClient.retryLoop remote maxRetries i = (.error (es maxRetries), maxRetries + 1) := by
  intro d
  induction d with
  | zero =>
    intro i hi hfail
    rw [SecopClient.retryLoop]
    rw [hfail i (le_refl i) (by omega)]
    dsimp only
    rw [dif_pos (by omega)]
    simp only [Nat.add_zero] at hi
    subst hi
    rfl
  | succ d ih =>
    intro i hi hfail
    rw [SecopClient.retryLoop]
    rw [hfail i (le_refl i) (by omega)]
    dsimp only
    rw [dif_neg (by omega)]
    exact ih (i + 1) (by omega) (fun j hj1 hj2 => hfail j (by omega) hj2)

theorem retryLoop_first_success {E A : Type} (remote : Nat → Except E A) (a : A)
    (maxRetries k : Nat) (hk : k ≤ maxRetries) (hok : remote k = .ok a)
    (hfail : ∀ j, j < k → ∃ e, remote j = .error e) :
    SecopClient.retryLoop remote maxRetries 0 = (.ok a, k + 1) := by
  suffices h : ∀ d i, i + d = k → SecopClient.retryLoop remote maxRetries i = (.ok a, k + 1) by
    exact h k 0 (by omega)
  intro d
  induction d with
  | zero =>
    intro i hi
    simp only [Nat.add_zero] at hi
    subst hi
    rw [SecopClient.retryLoop, hok]
  | succ d ih =>
    intro i hi
    obtain ⟨e, he⟩ := hfail i (by omega)
    rw [SecopClient.retryLoop, he]
    dsimp only
    rw [dif_neg (by omega)]
    exact ih (i + 1) (by omega)

theorem query_of_miss {E A : Type} (redis : Option SecopClient.Store) (ser : A → String)
    (deser : String → A) (dataset : String) (params : List (String × Jv))
    (remote : Nat → Except E A) (maxRetries : Nat) (key : String)
    (hkey : SecopClient.cacheKey dataset params = some key)
    (hmiss : redis = none ∨ ∃ st, redis = some st ∧ SecopClient.storeGet st key = none) :
    ((SecopClient.query redis ser deser dataset params remote maxRetries).1 =
      match (SecopClient.retryLoop remote maxRetries 0).1 with
      | .ok a => .ok a
      | .error e => .err e) ∧
    (SecopClient.query redis ser deser dataset params remote maxRetries).2.1 =
      (SecopClient.retryLoop remote maxRetries 0).2 := by
  rcases hmiss with rfl | ⟨st, rfl, hm⟩ <;>
  · rcases h : SecopClient.retryLoop remote maxRetries 0 with ⟨r, n⟩
    cases r <;> simp_all [SecopClient.query, hkey]

/-! ### Heuristic parser lemmas -/

theorem heuristicEntity_cases (lowered : List Char) :
    QueryParser.heuristicEntity lowered = "suppliers" ∨
    QueryParser.heuristicEntity lowered = "agencies" ∨
    QueryParser.heuristicEntity lowered = "contracts" := by
  unfold QueryParser.heuristicEntity
  split_ifs <;> simp

theorem heuristicLimit_pos (lowered : List Char) (n : Int)
    (h : QueryParser.heuristicLimit lowered = some n) : 0 < n := by
  unfold QueryParser.heuristicLimit at h
  cases hs : QueryParser.searchTop lowered with
  | none => rw [hs] at h; cases h
  | some ds =>
    rw [hs] at h
    dsimp only at h
    by_cases hp : QueryParser.digitsToNat ds > 0
    · rw [if_pos hp] at h
      cases h
      exact_mod_cast hp
    · rw [if_neg hp] at h
      cases h

theorem llmResponse_none (jsonParse : String → Option Jv)
    (llm : Option (String → QueryParser.LlmResult)) (query : String)
    (h : QueryParser.llmUnusable jsonParse llm query) :
    QueryParser.llmResponse jsonParse llm query = none := by
  rcases h with rfl | ⟨generate, rfl, hg | ⟨raw, hg, hc⟩⟩
  · rfl
  · simp [QueryParser.llmResponse, hg]
  · simp [QueryParser.llmResponse, hg, hc]

theorem mkQueryParams_heuristic_ok (e : String)
    (he : e = "suppliers" ∨ e = "agencies" ∨ e = "contracts")
    (filters : List (String × Jv)) (metrics : List String) (raw : String)
    (lim : Option Int) (hlim : ∀ l, lim = some l → 0 < l) :
    QueryParser.mkQueryParams (.jStr e) filters metrics raw lim =
      .ok ⟨e, filters, metrics, raw, lim⟩ := by
  cases lim with
  | none => rcases he with rfl | rfl | rfl <;> rfl
  | some l =>
    have hl : ¬ l ≤ 0 := by have := hlim l rfl; omega
    rcases he with rfl | rfl | rfl <;> exact if_neg hl

theorem parse_of_unusable (jsonParse : String → Option Jv)
    (llm : Option (String → QueryParser.LlmResult)) (query : String)
    (h : QueryParser.llmUnusable jsonParse llm query) :
    QueryParser.parse jsonParse llm query =
      .ok ⟨QueryParser.heuristicEntity (query.toList.map QueryParser.lowerCh),
           (QueryParser.heuristicParse query.toList).filters,
           (QueryParser.heuristicParse query.toList).metrics, query,
           QueryParser.heuristicLimit (query.toList.map QueryParser.lowerCh)⟩ := by
  have hr := llmResponse_none jsonParse llm query h
  unfold QueryParser.parse
  rw [hr]
  show QueryParser.mkQueryParams
      (QueryParser.entityOr (some (.jStr
        (QueryParser.heuristicEntity (query.toList.map QueryParser.lowerCh)))))
      (QueryParser.heuristicParse query.toList).filters
      (QueryParser.heuristicParse query.toList).metrics query
      (QueryParser.heuristicLimit (query.toList.map QueryParser.lowerCh)) = _
  rcases heuristicEntity_cases (query.toList.map QueryParser.lowerCh) with hE | hE | hE <;>
  · rw [hE]
    rw [show QueryParser.entityOr (some (.jStr _)) = _ from rfl]
    exact mkQueryParams_heuristic_ok _ (by simp) _ _ _ _
      (fun l hl => heuristicLimit_pos _ l hl)

theorem char_eq_of_toNat_eq (a b : Char) (h : a.toNat = b.toNat) : a = b := by
  have hv : a.val = b.val := UInt32.ext h
  cases a; cases b; simp_all

theorem lexLt_irrefl (l : List Char) : lexLt l l = false := by
  induction l with
  | nil => rfl
  | cons c t ih => simp [lexLt, ih]

theorem lexLt_trans (a : List Char) : ∀ b c, lexLt a b = true → lexLt b c = true →
    lexLt a c = true := by
  induction a with
  | nil =>
    intro b c h1 h2
    cases c with
    | cons _ _ => rfl
    | nil =>
      cases b with
      | nil => simp [lexLt] at h2
      | cons bh bt => simp [lexLt] at h2
  | cons ah at_ ih =>
    intro b c h1 h2
    cases b with
    | nil => simp [lexLt] at h1
    | cons bh bt =>
      cases c with
      | nil => simp [lexLt] at h2
      | cons ch ct =>
        simp only [lexLt] at h1 h2 ⊢
        rcases Nat.lt_trichotomy ah.toNat bh.toNat with hab | hab | hab
        · rcases Nat.lt_trichotomy bh.toNat ch.toNat with hbc | hbc | hbc
          · rw [if_pos (by omega)]
          · rw [if_pos (by omega)]
          · rw [if_neg (by omega), if_pos (by omega)] at h2
            simp at h2
        · rw [if_neg (by omega), if_neg (by omega)] at h1
          rcases Nat.lt_trichotomy bh.toNat ch.toNat with hbc | hbc | hbc
          · rw [if_pos (by omega)]
          · rw [if_neg (by omega), if_neg (by omega)] at h2
            rw [if_neg (by omega), if_neg (by omega)]
            exact ih bt ct h1 h2
          · rw [if_neg (by omega), if_pos (by omega)] at h2
            simp at h2
        · rw [if_neg (by omega), if_pos (by omega)] at h1
          simp at h1

theorem lexLt_conn (a : List Char) : ∀ b, lexLt a b = false → lexLt b a = false → a = b := by
  induction a with
  | nil =>
    intro b h1 _
    cases b with
    | nil => rfl
    | cons _ _ => simp [lexLt] at h1
  | cons ah at_ ih =>
    intro b h1 h2
    cases b with
    | nil => simp [lexLt] at h2
    | cons bh bt =>
      simp only [lexLt] at h1 h2
      rcases Nat.lt_trichotomy ah.toNat bh.toNat with hab | hab | hab
      · rw [if_pos hab] at h1
        simp at h1
      · rw [if_neg (by omega), if_neg (by omega)] at h1
        rw [if_neg (by omega), if_neg (by omega)] at h2
        rw [char_eq_of_toNat_eq ah bh hab, ih bt h1 h2]
      · rw [if_pos hab] at h2
        simp at h2

instance : IsTotal String strLeP := by
  constructor
  intro a b
  unfold strLeP strLe
  by_cases h : lexLt b.toList a.toList = true
  · right
    have := lexLt_trans b.toList a.toList b.toList
    by_cases h2 : lexLt a.toList b.toList = true
    · have hbb := this h h2
      rw [lexLt_irrefl] at hbb
      cases hbb
    · simp [Bool.not_eq_true] at h2
      simp [h2]
  · left
    simp [Bool.not_eq_true] at h
    simp [h]

instance : IsTrans String strLeP := by
  constructor
  intro a b c h1 h2
  unfold strLeP strLe at h1 h2 ⊢
  simp only [Bool.not_eq_true'] at h1 h2 ⊢
  by_cases hca : lexLt c.toList a.toList = true
  · by_cases hbc : lexLt b.toList c.toList = true
    · have := lexLt_trans b.toList c.toList a.toList hbc hca
      rw [h1] at this
      cases this
    · simp [Bool.not_eq_true] at hbc
      have hbceq := lexLt_conn b.toList c.toList hbc h2
      rw [← hbceq] at hca
      rw [h1] at hca
      cases hca
  · simp [Bool.not_eq_true] at hca
    exact hca

instance : IsAntisymm String strLeP := by
  constructor
  intro a b h1 h2
  unfold strLeP strLe at h1 h2
  simp only [Bool.not_eq_true'] at h1 h2
  exact String.toList_inj.mp (lexLt_conn a.toList b.toList h2 h1)

theorem insertionSort_perm_invariant (l1 l2 : List String) (h : l1.Perm l2) :
    l1.insertionSort strLeP = l2.insertionSort strLeP :=
  List.eq_of_perm_of_sorted
    ((List.perm_insertionSort strLeP l1).trans (h.trans (List.perm_insertionSort strLeP l2).symm))
    (List.sorted_insertionSort strLeP l1) (List.sorted_insertionSort strLeP l2)

theorem lookup_eq_of_perm {β : Type} {l1 l2 : List (String × β)} (h : l1.Perm l2) :
    (l1.map Prod.fst).Nodup → ∀ k, List.lookup k l1 = List.lookup k l2 := by
  induction h with
  | nil => intro _ k; rfl
  | cons x h ih =>
    intro hnd k
    obtain ⟨k1, v1⟩ := x
    simp only [List.map_cons, List.nodup_cons] at hnd
    simp only [List.lookup]
    cases hk : k == k1
    · exact ih hnd.2 k
    · rfl
  | swap x y l =>
    intro hnd k
    obtain ⟨k1, v1⟩ := x
    obtain ⟨k2, v2⟩ := y
    simp only [List.map_cons, List.nodup_cons, List.mem_cons] at hnd
    have hne : k2 ≠ k1 := fun hcontra => hnd.1 (Or.inl hcontra)
    simp only [List.lookup]
    cases hk2 : k == k2 <;> cases hk1 : k == k1 <;> try rfl
    have ha : k = k2 := by simpa using hk2
    have hb : k = k1 := by simpa using hk1
    exact absurd (ha ▸ hb) hne
  | trans h1 h2 ih1 ih2 =>
    intro hnd k
    have hnd2 := ((h1.map Prod.fst).nodup_iff).mp hnd
    exact (ih1 hnd k).trans (ih2 hnd2 k)

theorem dumpsSortedPairs_fst (kvs : List (String × Jv)) :
    ∀ ps, dumpsSortedPairs kvs = some ps → ps.map Prod.fst = kvs.map Prod.fst := by
  induction kvs with
  | nil =>
    intro ps h
    cases h
    rfl
  | cons kv t ih =>
    intro ps h
    obtain ⟨k, v⟩ := kv
    cases hv : dumpsSorted v <;> cases ht : dumpsSortedPairs t <;>
      simp only [dumpsSortedPairs, hv, ht] at h
    · cases h
    · cases h
    · cases h
    · cases h
      simp [ih _ ht]

theorem dumpsSortedPairs_perm {kvs1 kvs2 : List (String × Jv)} (h : kvs1.Perm kvs2) :
    (dumpsSortedPairs kvs1 = none ∧ dumpsSortedPairs kvs2 = none) ∨
    (∃ ps1 ps2, dumpsSortedPairs kvs1 = some ps1 ∧ dumpsSortedPairs kvs2 = some ps2 ∧
      ps1.Perm ps2) := by
  induction h with
  | nil => exact .inr ⟨[], [], rfl, rfl, .nil⟩
  | cons x h ih =>
    obtain ⟨k, v⟩ := x
    rcases ih with ⟨h1, h2⟩ | ⟨ps1, ps2, h1, h2, hp⟩
    · left
      constructor <;> cases hv : dumpsSorted v <;> simp [dumpsSortedPairs, hv, h1, h2]
    · cases hv : dumpsSorted v
      · left
        constructor <;> simp [dumpsSortedPairs, hv]
      · rename_i s
        right
        exact ⟨(k, s) :: ps1, (k, s) :: ps2, by simp [dumpsSortedPairs, hv, h1],
          by simp [dumpsSortedPairs, hv, h2], hp.cons _⟩
  | swap x y l =>
    obtain ⟨k1, v1⟩ := x
    obtain ⟨k2, v2⟩ := y
    cases hv1 : dumpsSorted v1 <;> cases hv2 : dumpsSorted v2 <;>
      cases hl : dumpsSortedPairs l
    · left; constructor <;> simp [dumpsSortedPairs, hv1, hv2, hl]
    · left; constructor <;> simp [dumpsSortedPairs, hv1, hv2, hl]
    · left; constructor <;> simp [dumpsSortedPairs, hv1, hv2, hl]
    · left; constructor <;> simp [dumpsSortedPairs, hv1, hv2, hl]
    · left; constructor <;> simp [dumpsSortedPairs, hv1, hv2, hl]
    · left; constructor <;> simp [dumpsSortedPairs, hv1, hv2, hl]
    · left; constructor <;> simp [dumpsSortedPairs, hv1, hv2, hl]
    · rename_i s1 s2 ps
      right
      exact ⟨(k2, s2) :: (k1, s1) :: ps, (k1, s1) :: (k2, s2) :: ps,
        by simp [dumpsSortedPairs, hv1, hv2, hl], by simp [dumpsSortedPairs, hv1, hv2, hl],
        List.Perm.swap _ _ _⟩
  | trans h1 h2 ih1 ih2 =>
    rcases ih1 with ⟨ha1, ha2⟩ | ⟨ps1, ps2, ha1, ha2, hpa⟩ <;>
      rcases ih2 with ⟨hb1, hb2⟩ | ⟨qs1, qs2, hb1, hb2, hpb⟩
    · exact .inl ⟨ha1, hb2⟩
    · rw [ha2] at hb1; cases hb1
    · rw [ha2] at hb1; cases hb1
    · right
      rw [ha2] at hb1
      cases hb1
      exact ⟨_, _, ha1, hb2, hpa.trans hpb⟩


/-! ### Claim theorems -/

/-- C1: for every dataset and params (serialisable, with the cache missed so
the remote path is reached), `SecopClient.query` propagates a remote-query
failure only after exactly `maxRetries + 1` failed attempts — the propagated
error being the last attempt's failure — and whenever an attempt succeeds
the result is returned immediately, after `k + 1` calls when the first
success is attempt `k`. -/
theorem secop_query_retry_contract {E A : Type} (redis : Option SecopClient.Store)
    (ser : A → String) (deser : String → A) (dataset : String) (params : List (String × Jv))
    (remote : Nat → Except E A) (maxRetries : Nat) (key : String)
    (hkey : SecopClient.cacheKey dataset params = some key)
    (hmiss : redis = none ∨ ∃ st, redis = some st ∧ SecopClient.storeGet st key = none) :
    (∀ es : Nat → E, (∀ j, j ≤ maxRetries → remote j = .error (es j)) →
      (SecopClient.query redis ser deser dataset params remote maxRetries).1 =
          .err (es maxRetries) ∧
        (SecopClient.query redis ser deser dataset params remote maxRetries).2.1 =
          maxRetries + 1) ∧
    (∀ k a, k ≤ maxRetries → remote k = .ok a → (∀ j, j < k → ∃ e, remote j = .error e) →
      (SecopClient.query redis ser deser dataset params remote maxRetries).1 = .ok a ∧
        (SecopClient.query redis ser deser dataset params remote maxRetries).2.1 = k + 1) := by
  obtain ⟨h1, h2⟩ := query_of_miss redis ser deser dataset params remote maxRetries key hkey hmiss
  constructor
  · intro es hf
    have hl := retryLoop_all_fail remote es maxRetries maxRetries 0 (by omega)
      (fun j _ hj2 => hf j hj2)
    rw [hl] at h1 h2
    exact ⟨h1, h2⟩
  · intro k a hk hok hf
    have hl := retryLoop_first_success remote a maxRetries k hk hok hf
    rw [hl] at h1 h2
    exact ⟨h1, h2⟩

/-- Witness for C1: with no cache, an always-failing remote and one retry,
the query propagates the second attempt's failure after two calls. -/
theorem secop_query_retry_contract_witness :
    (SecopClient.query none (fun _ => "") (fun _ => (0 : Nat)) "ds" []
        (fun i => .error (toString i)) 1).1 = .err "1" ∧
    (SecopClient.query none (fun _ => "") (fun _ => (0 : Nat)) "ds" []
        (fun i => .error (toString i)) 1).2.1 = 2 :=
  (secop_query_retry_contract none (fun _ => "") (fun _ => (0 : Nat))
      "ds" [] (fun i => .error (toString i)) 1 "secop:ds:\x7b\x7d" rfl (.inl rfl)).1
    (fun i => toString i) (fun _ _ => rfl)

/-- C2: when a cache store is configured and holds a value for the cache key
of `(dataset, params)`, `SecopClient.query` returns the deserialised cached
value, makes zero remote calls, and leaves the store unchanged. -/
theorem secop_query_cache_hit {E A : Type} (st : SecopClient.Store) (ser : A → String)
    (deser : String → A) (dataset : String) (params : List (String × Jv))
    (remote : Nat → Except E A) (maxRetries : Nat) (key cached : String)
    (hkey : SecopClient.cacheKey dataset params = some key)
    (hhit : SecopClient.storeGet st key = some cached) :
    SecopClient.query (some st) ser deser dataset params remote maxRetries =
      (.ok (deser cached), 0, some st) := by
  simp [SecopClient.query, hkey, hhit]

/-- Witness for C2: a concrete cache hit is returned deserialised with no
remote call. -/
theorem secop_query_cache_hit_witness :
    SecopClient.query (some [("secop:ds:\x7b\x7d", 300, "CACHED")])
        (fun s => s) (fun s => (s : String)) "ds" [] (fun _ => .error ()) 3 =
      (.ok "CACHED", 0, some [("secop:ds:\x7b\x7d", 300, "CACHED")]) :=
  secop_query_cache_hit [("secop:ds:\x7b\x7d", 300, "CACHED")]
    (fun s => s) (fun s => (s : String)) "ds" [] (fun _ => .error ()) 3 "secop:ds:\x7b\x7d"
    "CACHED" rfl rfl

/-- C3: with no language model configured, or a model that raises or returns
unusable output, `QueryParser.parse` raises no exception and returns a
`QueryParams` with non-empty entity; in particular, for
`"Contratos de la entidad Ministerio de Salud 2022"` with a model returning
non-JSON text, the result has entity `"agencies"`, `filters.year = 2022`,
and a non-empty `filters.buyer`. -/
theorem parser_fallback_contract (jsonParse : String → Option Jv)
    (llm : Option (String → QueryParser.LlmResult)) (query : String)
    (generate : String → QueryParser.LlmResult) (s : String)
    (hllm : QueryParser.llmUnusable jsonParse llm query)
    (hgen : generate (QueryParser.buildPrompt
        "Contratos de la entidad Ministerio de Salud 2022") = .returns (.text s))
    (hs : jsonParse s = none) :
    (∃ qp, QueryParser.parse jsonParse llm query = .ok qp ∧ qp.entity ≠ "") ∧
    (∃ qp, QueryParser.parse jsonParse (some generate)
        "Contratos de la entidad Ministerio de Salud 2022" = .ok qp ∧
      qp.entity = "agencies" ∧
      List.lookup "year" qp.filters = some (.jInt 2022) ∧
      List.lookup "buyer" qp.filters = some (.jStr "Ministerio de Salud 2022") ∧
      "Ministerio de Salud 2022" ≠ "") := by
  constructor
  · rw [parse_of_unusable jsonParse llm query hllm]
    refine ⟨_, rfl, ?_⟩
    show ¬ QueryParser.heuristicEntity (query.toList.map QueryParser.lowerCh) = ""
    rcases heuristicEntity_cases (query.toList.map QueryParser.lowerCh) with hE | hE | hE <;>
      (rw [hE]; decide)
  · rw [parse_of_unusable jsonParse (some generate)
      "Contratos de la entidad Ministerio de Salud 2022"
      (.inr ⟨generate, rfl, .inr ⟨_, hgen, by simp [QueryParser.coerceResponse, hs]⟩⟩)]
    exact ⟨_, rfl, rfl, rfl, rfl, by decide⟩

/-- Witness for C3: no model for the universal part, a model returning the
non-JSON text `"not json"` for the concrete part. -/
theorem parser_fallback_contract_witness :
    (∃ qp, QueryParser.parse (fun _ => none) none "" = .ok qp ∧ qp.entity ≠ "") ∧
    (∃ qp, QueryParser.parse (fun _ => none) (some (fun _ => .returns (.text "not json")))
        "Contratos de la entidad Ministerio de Salud 2022" = .ok qp ∧
      qp.entity = "agencies" ∧
      List.lookup "year" qp.filters = some (.jInt 2022) ∧
      List.lookup "buyer" qp.filters = some (.jStr "Ministerio de Salud 2022") ∧
      "Ministerio de Salud 2022" ≠ "") :=
  parser_fallback_contract (fun _ => none) none ""
    (fun _ => .returns (.text "not json")) "not json" (.inl rfl) rfl rfl

/-- C4: with no language model, parsing
`"Top 5 contratos del proveedor ACME Corp 2024"` yields entity
`"suppliers"`, supplier `"ACME Corp"` (trailing year stripped), year `2024`
as an integer, and limit `5`. -/
theorem parser_top5_acme (jsonParse : String → Option Jv) :
    ∃ qp, QueryParser.parse jsonParse none
        "Top 5 contratos del proveedor ACME Corp 2024" = .ok qp ∧
      qp.entity = "suppliers" ∧
      List.lookup "supplier" qp.filters = some (.jStr "ACME Corp") ∧
      List.lookup "year" qp.filters = some (.jInt 2024) ∧
      qp.limit = some 5 :=
  ⟨_, rfl, rfl, rfl, rfl, rfl⟩

/-- C5 (counterexample): a dict filter value — a kind other than numeric,
string or list — is rendered as a membership clause over its keys, not as
the claimed `key = <json-encoded value>` fallback. -/
theorem render_filter_dict_counterexample :
    SoQLBuilder.renderFilter "k" (.jDict [("a", .jNull)]) = "k IN (\x27a\x27)" ∧
    SoQLBuilder.renderFilter "k" (.jDict [("a", .jNull)]) ≠ "k = \x7b\"a\": null\x7d" :=
  ⟨rfl, by decide⟩

/-- C5 (amended): `SoQLBuilder.build` renders each filter by its value's
kind — numeric (including Python bools, which are ints) as `key = value`,
string as the upper-cased LIKE clause with single quotes doubled, list as
`key IN (…)` with elements quoted by the numeric/string rule, and any other
non-iterable kind as `key = <json-encoded value>` (dicts and sets, being
iterable, render as membership clauses instead) — all clauses joined with
`" AND "`. -/
theorem render_filter_kinds (key : String) (n : Int) (b : Bool) (s : String) (xs : List Jv)
    (filters : List (String × Jv)) :
    SoQLBuilder.renderFilter key (.jInt n) = key ++ " = " ++ toString n ∧
    SoQLBuilder.renderFilter key (.jFloat n) = key ++ " = " ++ toString n ++ ".0" ∧
    SoQLBuilder.renderFilter key (.jBool b) =
      key ++ " = " ++ (if b then "True" else "False") ∧
    SoQLBuilder.renderFilter key (.jStr s) =
      "upper(" ++ key ++ ") LIKE upper(\x27%" ++ dupQuotes s ++ "%\x27)" ∧
    SoQLBuilder.quoteVal (.jInt n) = toString n ∧
    SoQLBuilder.quoteVal (.jFloat n) = toString n ++ ".0" ∧
    SoQLBuilder.quoteVal (.jBool b) = (if b then "True" else "False") ∧
    SoQLBuilder.quoteVal (.jStr s) = "\x27" ++ dupQuotes s ++ "\x27" ∧
    SoQLBuilder.renderFilter key (.jList xs) =
      key ++ " IN (" ++ joinCommaSp (xs.map SoQLBuilder.quoteVal) ++ ")" ∧
    SoQLBuilder.renderFilter key .jNull = key ++ " = null" ∧
    SoQLBuilder.buildWhere filters =
      String.intercalate " AND " (filters.map (fun kv => SoQLBuilder.renderFilter kv.1 kv.2)) :=
  ⟨rfl, rfl, rfl, rfl, rfl, rfl, rfl, rfl, rfl, rfl, buildWhere_eq_join filters⟩

/-- C6: `SoQLBuilder.build` selects the dataset identifier with the claimed
precedence: a truthy `dataset_id` in a resolved entity's metadata wins;
otherwise the static name-to-dataset table; otherwise the entity name
itself. -/
theorem build_dataset_precedence (dmap : List (String × String)) (qp : QueryParams)
    (ent : Option ResolvedEntity) :
    (∀ re v, ent = some re → List.lookup "dataset_id" re.metadata = some v → v.truthy = true →
        (SoQLBuilder.build dmap qp ent).dataset = v) ∧
    (noTruthyDatasetId ent → ∀ d, List.lookup qp.entity dmap = some d →
        (SoQLBuilder.build dmap qp ent).dataset = .jStr d) ∧
    (noTruthyDatasetId ent → List.lookup qp.entity dmap = none →
        (SoQLBuilder.build dmap qp ent).dataset = .jStr qp.entity) := by
  have hb : (SoQLBuilder.build dmap qp ent).dataset = SoQLBuilder.resolveDataset dmap qp ent := rfl
  refine ⟨?_, ?_, ?_⟩
  · intro re v h1 h2 h3
    subst h1
    rw [hb]
    simp [SoQLBuilder.resolveDataset, h2, h3]
  · intro hno d hd
    rw [hb]
    cases ent with
    | none => simp [SoQLBuilder.resolveDataset, hd]
    | some re =>
      cases hl : List.lookup "dataset_id" re.metadata with
      | none => simp [SoQLBuilder.resolveDataset, hl, hd]
      | some v =>
        have hv := hno re rfl v hl
        simp [SoQLBuilder.resolveDataset, hl, hv, hd]
  · intro hno hd
    rw [hb]
    cases ent with
    | none => simp [SoQLBuilder.resolveDataset, hd]
    | some re =>
      cases hl : List.lookup "dataset_id" re.metadata with
      | none => simp [SoQLBuilder.resolveDataset, hl, hd]
      | some v =>
        have hv := hno re rfl v hl
        simp [SoQLBuilder.resolveDataset, hl, hv, hd]

/-- Witness for C6: a resolved entity carrying `dataset_id = "dsX"`
overrides the static `contracts` mapping. -/
theorem build_dataset_precedence_witness :
    (SoQLBuilder.build [("contracts", "c1")] ⟨"contracts", [], [], "", none⟩
        (some ⟨"x", 1, [("dataset_id", .jStr "dsX")]⟩)).dataset = .jStr "dsX" :=
  (build_dataset_precedence [("contracts", "c1")] ⟨"contracts", [], [], "", none⟩
      (some ⟨"x", 1, [("dataset_id", .jStr "dsX")]⟩)).1 _ _ rfl rfl rfl

/-- C7: `SecopClient._cache_key` is a deterministic function of the map
contents of `params`: two params dicts with the same key-value bindings
(keys unique, insertion order arbitrary) produce the identical cache-key
string. -/
theorem cache_key_deterministic (dataset : String) (p1 p2 : List (String × Jv))
    (hperm : p1.Perm p2) (hnd : (p1.map Prod.fst).Nodup) :
    SecopClient.cacheKey dataset p1 = SecopClient.cacheKey dataset p2 := by
  unfold SecopClient.cacheKey
  suffices h : dumpsSorted (.jDict p1) = dumpsSorted (.jDict p2) by rw [h]
  rcases dumpsSortedPairs_perm hperm with ⟨h1, h2⟩ | ⟨ps1, ps2, h1, h2, hp⟩
  · simp only [dumpsSorted, h1, h2]
  · have hfst1 := dumpsSortedPairs_fst p1 ps1 h1
    have hfst2 := dumpsSortedPairs_fst p2 ps2 h2
    have hkeysperm : (ps1.map Prod.fst).Perm (ps2.map Prod.fst) := by
      rw [hfst1, hfst2]
      exact hperm.map Prod.fst
    have hsort := insertionSort_perm_invariant _ _ hkeysperm
    have hndps : (ps1.map Prod.fst).Nodup := by rw [hfst1]; exact hnd
    have hfun : (fun k => "\"" ++ jsonEscape k ++ "\": " ++ ((ps1.lookup k).getD "")) =
        (fun k => "\"" ++ jsonEscape k ++ "\": " ++ ((ps2.lookup k).getD "")) :=
      funext (fun k => by rw [lookup_eq_of_perm hp hndps k])
    simp only [dumpsSorted, h1, h2]
    dsimp only [Option.map]
    rw [hsort, hfun]

/-- Witness for C7: the two insertion orders of `a ↦ "x", b ↦ 1` produce the
same cache key. -/
theorem cache_key_deterministic_witness :
    SecopClient.cacheKey "ds" [("b", .jInt 1), ("a", .jStr "x")] =
      SecopClient.cacheKey "ds" [("a", .jStr "x"), ("b", .jInt 1)] :=
  cache_key_deterministic "ds" [("b", .jInt 1), ("a", .jStr "x")]
    [("a", .jStr "x"), ("b", .jInt 1)]
    (List.Perm.swap ("a", Jv.jStr "x") ("b", Jv.jInt 1) []) (by decide)

/-- C8: `EntityResolver.resolve` with no similarity-search client returns
the mention itself with score 1.0 and empty metadata, for every mention,
`topK` and reranker configuration. -/
theorem resolver_no_chroma (cohere : Option EntityResolver.CohereClient)
    (mention : String) (topK : Nat) :
    EntityResolver.resolve none cohere mention topK = some ⟨mention, 1, []⟩ := by
  cases cohere <;> rfl

/-- C9: constructing a `QueryParams` fails with a `ValueError` exactly when
the entity is empty or whitespace-only, or the limit is present and not
positive; it succeeds exactly otherwise. -/
theorem query_params_validation (entity : String) (filters : List (String × Jv))
    (metrics : List String) (raw : String) (limit : Option Int) :
    ((∃ msg, QueryParser.mkQueryParams (.jStr entity) filters metrics raw limit =
        .error (.valueError msg)) ↔
      (QueryParser.stripBoth QueryParser.isSpaceCh entity.toList = [] ∨
        ∃ l, limit = some l ∧ l ≤ 0)) ∧
    ((∃ qp, QueryParser.mkQueryParams (.jStr entity) filters metrics raw limit = .ok qp) ↔
      ¬(QueryParser.stripBoth QueryParser.isSpaceCh entity.toList = [] ∨
        ∃ l, limit = some l ∧ l ≤ 0)) := by
  by_cases he : entity = ""
  · subst he
    have h0 : QueryParser.stripBoth QueryParser.isSpaceCh ([] : List Char) = [] := rfl
    simp [QueryParser.mkQueryParams, Jv.truthy, h0]
  · have ht : Jv.truthy (.jStr entity) = true := by simp [Jv.truthy, he]
    by_cases hs : QueryParser.stripBoth QueryParser.isSpaceCh entity.data = []
    · simp [QueryParser.mkQueryParams, ht, hs]
    · cases limit with
      | none => simp [QueryParser.mkQueryParams, ht, hs]
      | some l =>
        by_cases hl : l ≤ 0
        · simp [QueryParser.mkQueryParams, ht, hs, hl]
        · simp [QueryParser.mkQueryParams, ht, hs, hl]

/-- C10: in `SoQLBuilder`, iterable non-numeric non-string filter values —
dicts (contributing their keys) and sets, not only lists — render as
membership clauses whose elements go through `_quote` (numbers and bools
bare, since Python `bool` passes `isinstance((int, float))`; everything
else single-quoted), and the json-encoded fallback is reached only by the
remaining non-iterable kind (`None`, encoded `null`). -/
theorem render_filter_iterables (key : String) (kvs : List (String × Jv)) (xs : List Jv)
    (n : Int) (b : Bool) :
    SoQLBuilder.renderFilter key (.jDict kvs) =
      key ++ " IN (" ++ joinCommaSp (kvs.map (fun kv => SoQLBuilder.quoteVal (.jStr kv.1))) ++ ")" ∧
    SoQLBuilder.renderFilter key (.jSet xs) =
      key ++ " IN (" ++ joinCommaSp (xs.map SoQLBuilder.quoteVal) ++ ")" ∧
    SoQLBuilder.renderFilter key (.jList xs) =
      key ++ " IN (" ++ joinCommaSp (xs.map SoQLBuilder.quoteVal) ++ ")" ∧
    SoQLBuilder.quoteVal (.jInt n) = toString n ∧
    SoQLBuilder.quoteVal (.jBool b) = (if b then "True" else "False") ∧
    SoQLBuilder.renderFilter key .jNull = key ++ " = null" :=
  ⟨rfl, rfl, rfl, rfl, rfl, rfl⟩
